import Mathlib

/-!
Verification of the daily-ad-report scripts (Naver StatReport workflow in
`scripts/fetch-naver-dok.js` and the Meta retry wrapper in
`scripts/fetch-meta.js`) against their natural-language specification.

JavaScript numbers are embedded as exact rationals (`ℚ`); a JS `Map` is
embedded as an association list kept in insertion order, with `mapSet`
replacing in place for an existing key and appending for a new one, exactly
as `Map.prototype.set` behaves.  Fallible code is embedded with `Except`,
where `.error` models a thrown exception and a `try`/`catch` block is a
`match` on the body's result.
-/

/-- JS Map lookup: first (and only) entry whose key matches. -/
def mapGet {α : Type} : List (String × α) → String → Option α
  | [], _ => none
  | (k', v) :: rest, k => if k' = k then some v else mapGet rest k

/-- JS `Map.prototype.has`. -/
def mapHas {α : Type} (m : List (String × α)) (k : String) : Bool :=
  (mapGet m k).isSome

/-- JS `Map.prototype.set`: replace in place when the key exists, append when
it does not, preserving insertion order. -/
def mapSet {α : Type} : List (String × α) → String → α → List (String × α)
  | [], k, v => [(k, v)]
  | (k', v') :: rest, k, v =>
      if k' = k then (k', v) :: rest else (k', v') :: mapSet rest k v

theorem mapGet_set_self {α : Type} (m : List (String × α)) (k : String) (v : α) :
    mapGet (mapSet m k v) k = some v := by
  induction m with
  | nil => simp [mapGet, mapSet]
  | cons e rest ih =>
      by_cases h : e.1 = k
      · simp [mapSet, mapGet, h]
      · simp [mapSet, mapGet, h, ih]

theorem mapGet_set_ne {α : Type} (m : List (String × α)) (k k' : String) (v : α)
    (h : k ≠ k') : mapGet (mapSet m k v) k' = mapGet m k' := by
  induction m with
  | nil => simp [mapGet, mapSet, h]
  | cons e rest ih =>
      by_cases he : e.1 = k
      · simp [mapSet, mapGet, he, h]
      · by_cases he' : e.1 = k'
        · simp [mapSet, mapGet, he, he', Ne.symm h]
        · simp [mapSet, mapGet, he, he', ih]

theorem keys_set_of_has {α : Type} (m : List (String × α)) (k : String) (v : α)
    (h : mapHas m k = true) :
    (mapSet m k v).map Prod.fst = m.map Prod.fst := by
  induction m with
  | nil => simp [mapHas, mapGet] at h
  | cons e rest ih =>
      by_cases he : e.1 = k
      · simp [mapSet, he]
      · simp only [mapHas, mapGet, he, if_neg he] at h
        simp [mapSet, he, ih h]

theorem mapGet_eq_none_of_not_mem {α : Type} (m : List (String × α)) (k : String)
    (h : k ∉ m.map Prod.fst) : mapGet m k = none := by
  induction m with
  | nil => rfl
  | cons e rest ih =>
      simp only [List.map_cons, List.mem_cons] at h
      push_neg at h
      have : e.1 ≠ k := fun hk => h.1 hk.symm
      simp [mapGet, this, ih h.2]

theorem keys_set {α : Type} (m : List (String × α)) (k : String) (v : α) :
    (mapSet m k v).map Prod.fst =
      if mapHas m k then m.map Prod.fst else m.map Prod.fst ++ [k] := by
  induction m with
  | nil => simp [mapSet, mapHas, mapGet]
  | cons e rest ih =>
      by_cases he : e.1 = k
      · simp [mapSet, mapHas, mapGet, he]
      · have hcond : mapHas (e :: rest) k = mapHas rest k := by
          simp [mapHas, mapGet, he]
        simp only [mapSet, if_neg he, List.map_cons, hcond, ih]
        by_cases hh : mapHas rest k
        · simp [hh]
        · simp [hh]

/-!
Report polling (`NaverAPIClient.waitForReportCompletion`,
`scripts/fetch-naver-dok.js` lines 269-299).

Each poll attempt does `GET /stat-reports/{jobId}` inside a `try` block:
a transport failure throws, a `FAILED` status throws
`new Error(reportType + ' 리포트 생성 실패: ' + JSON.stringify(data))`, a
`COMPLETE`/`BUILT` status returns the payload, and any other status falls
through.  The `catch (statusError)` logs and continues the loop.  Note that
the `throw` for `FAILED` sits inside the same `try`, so it is caught by the
loop's own `catch`.  The loop runs while `attempts < CONFIG.REPORT.MAX_ATTEMPTS`
and throws the timeout error afterwards.
-/

/-- Payload of the report status endpoint (`statusResponse.data`). -/
structure ReportData where
  status : String
  downloadUrl : String
  deriving DecidableEq, Repr

/-- Outcome of one status request: the response payload, or a thrown
transport error (`axios.get` rejecting). -/
inductive PollResult where
  | response (data : ReportData)
  | transportFailure (msg : String)
  deriving DecidableEq, Repr

/-- Model of `JSON.stringify(statusResponse.data)` used in the FAILED
error message (the exact serialisation format is irrelevant to the claims). -/
def reportDataString (d : ReportData) : String :=
  d.status ++ "," ++ d.downloadUrl

def MAX_ATTEMPTS : Nat := 30

/-- Body of the `try` block of one polling attempt: `.ok (some data)` is the
`return statusResponse.data` on COMPLETE/BUILT, `.ok none` falls through to
the next iteration, `.error` is a thrown exception (transport failure or the
FAILED throw). -/
def pollTryBody (reportType : String) (r : PollResult) :
    Except String (Option ReportData) :=
  match r with
  | .transportFailure msg => .error msg
  | .response data =>
      if data.status = "COMPLETE" ∨ data.status = "BUILT" then
        .ok (some data)
      else if data.status = "FAILED" then
        .error (reportType ++ " 리포트 생성 실패: " ++ reportDataString data)
      else
        .ok none

/-- The `while attempts < MAX_ATTEMPTS` loop.  `polls n` is the outcome of
the status request of attempt `n+1`; `fuel` is the number of loop iterations
left (`MAX_ATTEMPTS - attempts`).  The `catch (statusError)` branch logs and
continues, so both `.error` outcomes of the body loop on.  The result pairs
the returned/thrown value with the number of attempts consumed. -/
def waitLoop (reportType : String) (polls : Nat → PollResult) :
    Nat → Nat → Except String ReportData × Nat
  | attempts, 0 => (.error (reportType ++ " 리포트 처리 시간 초과"), attempts)
  | attempts, fuel + 1 =>
      match pollTryBody reportType (polls attempts) with
      | .ok (some data) => (.ok data, attempts + 1)
      | .ok none => waitLoop reportType polls (attempts + 1) fuel
      | .error _statusError => waitLoop reportType polls (attempts + 1) fuel

/-- `NaverAPIClient.waitForReportCompletion`, as a function of the sequence
of status-request outcomes. -/
def waitForReportCompletion (reportType : String) (polls : Nat → PollResult) :
    Except String ReportData × Nat :=
  waitLoop reportType polls 0 MAX_ATTEMPTS

/-- Turn a finite prefix of poll outcomes into a full sequence; attempts
beyond the prefix see a PENDING status. -/
def pollsOf (l : List PollResult) : Nat → PollResult :=
  fun n => (l.get? n).getD (.response ⟨"PENDING", ""⟩)

/-!
Retry wrapper (`fetchWithRetry`, `scripts/fetch-meta.js` lines 211-255).

The `for (let attempt = 1; attempt <= maxRetries; attempt++)` loop wraps the
whole attempt in `try`/`catch`.  Inside the `try`: an OK response returns the
parsed payload; a non-OK response has its body parsed for `error.code` and
`error.is_transient`; when the code is one of 4/17/32/613 or transient AND
`attempt < maxRetries`, it waits `baseDelay * 2^(attempt-1)` and continues;
otherwise it throws `new Error(label + ' error: ' + status + ' ' + statusText)`.
That throw, like a network failure of `fetch` itself, lands in the `catch`,
which rethrows only when `attempt === maxRetries` and otherwise waits a fixed
30000 ms and continues.  After the loop a final `label + ' 요청 실패'` error
is thrown (reachable only when `maxRetries` is 0).
-/

/-- A non-OK HTTP response together with the fields the code extracts from
its body: `res.status`, `res.statusText`, the raw body text, and the parsed
`error.code` / `error.is_transient` markers (absent fields are `none`/`false`,
matching the `JSON.parse` fallback). -/
structure HttpErrorBody where
  status : Nat
  statusText : String
  bodyText : String
  errorCode : Option Int
  isTransient : Bool
  deriving DecidableEq, Repr

/-- Outcome of one `fetch(url)` call. -/
inductive FetchResult where
  | success (payload : String)
  | httpError (e : HttpErrorBody)
  | networkFailure (msg : String)
  deriving DecidableEq, Repr

/-- Line 232: `[4, 17, 32, 613].includes(errorCode) || isTransient`. -/
def isRateLimitError (e : HttpErrorBody) : Bool :=
  (match e.errorCode with
   | some c => ([4, 17, 32, 613] : List Int).contains c
   | none => false) || e.isTransient

def baseDelay : Nat := 30000

/-- Result of a `fetchWithRetry` run: the returned payload or thrown error,
the number of fetch attempts actually made, and the list of waits performed
(in milliseconds, in order). -/
structure RetryTrace where
  result : Except String String
  attemptsUsed : Nat
  waits : List Nat
  deriving Repr

/-- The retry loop.  `responses n` is the outcome of the fetch of attempt
`n+1`; `fuel` is the number of loop iterations left (`maxRetries + 1 - attempt`),
so exhausted fuel is exactly the loop exit and yields the post-loop throw. -/
def fetchLoop (label : String) (responses : Nat → FetchResult) (maxRetries : Nat) :
    Nat → Nat → List Nat → RetryTrace
  | attempt, 0, waits => ⟨.error (label ++ " 요청 실패"), attempt - 1, waits⟩
  | attempt, fuel + 1, waits =>
      match responses (attempt - 1) with
      | .success payload => ⟨.ok payload, attempt, waits⟩
      | .networkFailure msg =>
          if attempt = maxRetries then
            ⟨.error msg, attempt, waits⟩
          else
            fetchLoop label responses maxRetries (attempt + 1) fuel (waits ++ [30000])
      | .httpError e =>
          if isRateLimitError e ∧ attempt < maxRetries then
            fetchLoop label responses maxRetries (attempt + 1) fuel
              (waits ++ [baseDelay * 2 ^ (attempt - 1)])
          else
            if attempt = maxRetries then
              ⟨.error (label ++ " error: " ++ toString e.status ++ " " ++ e.statusText),
               attempt, waits⟩
            else
              fetchLoop label responses maxRetries (attempt + 1) fuel (waits ++ [30000])

/-- `fetchWithRetry` of `scripts/fetch-meta.js` (default `maxRetries = 3`),
as a function of the sequence of fetch outcomes. -/
def fetchWithRetry (label : String) (responses : Nat → FetchResult)
    (maxRetries : Nat := 3) : RetryTrace :=
  fetchLoop label responses maxRetries 1 maxRetries []

/-- Finite prefix of fetch outcomes; attempts beyond the prefix succeed. -/
def responsesOf (l : List FetchResult) : Nat → FetchResult :=
  fun n => (l.get? n).getD (.success "")

/-- A rate-limited response (Meta error code 4). -/
def rateLimited : HttpErrorBody :=
  ⟨400, "Bad Request", "rate limit body", some 4, false⟩

/-!
Metric calculator (`calculateMetrics`, `scripts/fetch-naver-dok.js`
lines 113-122).  JS numbers are embedded as exact rationals; the `> 0`
guards translate literally.
-/

def calculateMetrics.ctr (clicks impressions : ℚ) : ℚ :=
  if impressions > 0 then clicks / impressions else 0

def calculateMetrics.cpc (spend clicks : ℚ) : ℚ :=
  if clicks > 0 then spend / clicks else 0

def calculateMetrics.cvr (conversions clicks : ℚ) : ℚ :=
  if clicks > 0 then conversions / clicks else 0

def calculateMetrics.cpm (spend impressions : ℚ) : ℚ :=
  if impressions > 0 then spend / (impressions / 1000) else 0

def calculateMetrics.cpa (spend conversions : ℚ) : ℚ :=
  if conversions > 0 then spend / conversions else 0

def calculateMetrics.aov (conversionValue conversions : ℚ) : ℚ :=
  if conversions > 0 then conversionValue / conversions else 0

def calculateMetrics.roas (conversionValue spend : ℚ) : ℚ :=
  if spend > 0 then conversionValue / spend else 0

def calculateMetrics.avgRank (sumAdRank impressions : ℚ) : ℚ :=
  if impressions > 0 then sumAdRank / impressions else 0

/-!
Data records and aggregation (`NaverDataTransformer` /
`NaverDataAggregator`, `scripts/fetch-naver-dok.js` lines 332-586).
Only the fields the aggregation reads are carried.
-/

/-- An AD-report record as produced by `transformAdData` (the fields
`aggregateAdData` destructures). -/
structure AdRecord where
  campaignId : String
  impressions : ℚ
  clicks : ℚ
  cost : ℚ
  sumAdRank : ℚ
  deriving DecidableEq, Repr

/-- A conversion-report record as produced by `transformConversionData`
(the fields `mergeConversionData` destructures). -/
structure ConversionRecord where
  campaignId : String
  conversionCount : ℚ
  conversionValue : ℚ
  deriving DecidableEq, Repr

/-- Per-campaign accumulator of `aggregateAdData` (lines 498-501). -/
structure CampaignStats where
  impressions : ℚ
  clicks : ℚ
  cost : ℚ
  sumAdRank : ℚ
  conversions : ℚ
  conversionValue : ℚ
  deriving DecidableEq, Repr

def zeroStats : CampaignStats := ⟨0, 0, 0, 0, 0, 0⟩

/-- One iteration of the `for (const ad of adData)` loop (lines 494-509):
insert a zero record when the campaign is new, then add the ad's fields
into the stored record. -/
def adStep (m : List (String × CampaignStats)) (ad : AdRecord) :
    List (String × CampaignStats) :=
  let m1 := if mapHas m ad.campaignId then m else mapSet m ad.campaignId zeroStats
  match mapGet m1 ad.campaignId with
  | some stats =>
      mapSet m1 ad.campaignId
        { stats with
          impressions := stats.impressions + ad.impressions
          clicks := stats.clicks + ad.clicks
          cost := stats.cost + ad.cost
          sumAdRank := stats.sumAdRank + ad.sumAdRank }
  | none => m1

/-- `NaverDataAggregator.aggregateAdData` (lines 491-512). -/
def aggregateAdData (adData : List AdRecord) : List (String × CampaignStats) :=
  adData.foldl adStep []

/-- Per-campaign conversion accumulator of `mergeConversionData`
(line 527: `{ count: 0, value: 0 }`). -/
structure ConvTotals where
  count : ℚ
  value : ℚ
  deriving DecidableEq, Repr

/-- One iteration of the first loop of `mergeConversionData`
(lines 523-533): accumulate conversion counts/values per campaign. -/
def convStep (m : List (String × ConvTotals)) (conv : ConversionRecord) :
    List (String × ConvTotals) :=
  let m1 := if mapHas m conv.campaignId then m
            else mapSet m conv.campaignId ⟨0, 0⟩
  match mapGet m1 conv.campaignId with
  | some c =>
      mapSet m1 conv.campaignId
        ⟨c.count + conv.conversionCount, c.value + conv.conversionValue⟩
  | none => m1

/-- The `campaignConversions` map built by the first loop of
`mergeConversionData`. -/
def buildCampaignConversions (conversionData : List ConversionRecord) :
    List (String × ConvTotals) :=
  conversionData.foldl convStep []

/-- One iteration of the second loop of `mergeConversionData`
(lines 536-542): when the campaign exists in `campaignStats`, REPLACE its
`conversions`/`conversionValue` with the accumulated totals. -/
def mergeStep (cs : List (String × CampaignStats)) (e : String × ConvTotals) :
    List (String × CampaignStats) :=
  if mapHas cs e.1 then
    match mapGet cs e.1 with
    | some stats =>
        mapSet cs e.1 { stats with conversions := e.2.count, conversionValue := e.2.value }
    | none => cs
  else cs

/-- `NaverDataAggregator.mergeConversionData` (lines 519-543); the JS
function mutates `campaignStats` in place, embedded here as returning the
updated map. -/
def mergeConversionData (campaignStats : List (String × CampaignStats))
    (conversionData : List ConversionRecord) : List (String × CampaignStats) :=
  (buildCampaignConversions conversionData).foldl mergeStep campaignStats

/-- Cohort accumulator of `aggregateByAdType` (lines 552-561). -/
structure CohortTotals where
  spend : ℚ
  impressions : ℚ
  clicks : ℚ
  conversion : ℚ
  conversionValue : ℚ
  sumAdRank : ℚ
  campaignCount : ℕ
  deriving DecidableEq, Repr

def VAT_RATE : ℚ := 1.1

def BRAND_SEARCH_DAILY_SPEND : ℚ := 19486

/-- Initial `powerlink` accumulator (lines 552-555). -/
def powerlinkInit : CohortTotals := ⟨0, 0, 0, 0, 0, 0, 0⟩

/-- Initial `brand` accumulator (lines 557-561): spend is seeded with
`CONFIG.AD.BRAND_SEARCH_DAILY_SPEND`. -/
def brandInit : CohortTotals := ⟨BRAND_SEARCH_DAILY_SPEND, 0, 0, 0, 0, 0, 0⟩

/-- The `{ powerlink, brand }` result object. -/
structure AggregateResult where
  powerlink : CohortTotals
  brand : CohortTotals
  deriving DecidableEq, Repr

/-- One iteration of the `for (const [campaignId, stats] of campaignStats)`
loop (lines 563-582): look the campaign type up (default `TEXT_45`), route to
`brand` on `BRAND_SEARCH_AD` and to `powerlink` otherwise; only the powerlink
branch derives spend from cost (`cost * VAT_RATE`). -/
def adTypeStep (campaignTypeMap : List (String × String)) (acc : AggregateResult)
    (e : String × CampaignStats) : AggregateResult :=
  let adType := (mapGet campaignTypeMap e.1).getD "TEXT_45"
  if adType = "BRAND_SEARCH_AD" then
    { acc with brand :=
      { acc.brand with
        impressions := acc.brand.impressions + e.2.impressions
        clicks := acc.brand.clicks + e.2.clicks
        conversion := acc.brand.conversion + e.2.conversions
        conversionValue := acc.brand.conversionValue + e.2.conversionValue
        sumAdRank := acc.brand.sumAdRank + e.2.sumAdRank
        campaignCount := acc.brand.campaignCount + 1 } }
  else
    { acc with powerlink :=
      { acc.powerlink with
        spend := acc.powerlink.spend + e.2.cost * VAT_RATE
        impressions := acc.powerlink.impressions + e.2.impressions
        clicks := acc.powerlink.clicks + e.2.clicks
        conversion := acc.powerlink.conversion + e.2.conversions
        conversionValue := acc.powerlink.conversionValue + e.2.conversionValue
        sumAdRank := acc.powerlink.sumAdRank + e.2.sumAdRank
        campaignCount := acc.powerlink.campaignCount + 1 } }

/-- `NaverDataAggregator.aggregateByAdType` (lines 551-585). -/
def aggregateByAdType (campaignStats : List (String × CampaignStats))
    (campaignTypeMap : List (String × String)) : AggregateResult :=
  campaignStats.foldl (adTypeStep campaignTypeMap) ⟨powerlinkInit, brandInit⟩

/-- `NaverDataAggregator.aggregateReports` (lines 467-484): group ad rows,
merge conversions, bucket by ad type. -/
def aggregateReports (adData : List AdRecord) (conversionData : List ConversionRecord)
    (campaignTypeMap : List (String × String)) : AggregateResult :=
  aggregateByAdType (mergeConversionData (aggregateAdData adData) conversionData)
    campaignTypeMap

/-!
Output-row construction (`NaverDataTransformer.createSupabaseData` and
`calculateAllMetrics`, `scripts/fetch-naver-dok.js` lines 394-452).
-/

/-- Model of `Number(x.toFixed(digits))`: decimal rounding (half up) to
`digits` places. -/
def toFixed (digits : ℕ) (x : ℚ) : ℚ :=
  (⌊x * 10 ^ digits + 1 / 2⌋ : ℚ) / 10 ^ digits

/-- The metric object returned by `calculateAllMetrics` (lines 439-452). -/
structure MetricSet where
  ctr : ℚ
  cpc : ℚ
  cvr : ℚ
  cpm : ℚ
  cpa : ℚ
  aov : ℚ
  roas : ℚ
  rank_avg : ℚ
  deriving DecidableEq, Repr

/-- `NaverDataTransformer.calculateAllMetrics` (lines 439-452). -/
def calculateAllMetrics (data : CohortTotals) : MetricSet :=
  { ctr := toFixed 4 (calculateMetrics.ctr data.clicks data.impressions)
    cpc := toFixed 2 (calculateMetrics.cpc data.spend data.clicks)
    cvr := toFixed 4 (calculateMetrics.cvr data.conversion data.clicks)
    cpm := toFixed 2 (calculateMetrics.cpm data.spend data.impressions)
    cpa := toFixed 2 (calculateMetrics.cpa data.spend data.conversion)
    aov := toFixed 2 (calculateMetrics.aov data.conversionValue data.conversion)
    roas := toFixed 4 (calculateMetrics.roas data.conversionValue data.spend)
    rank_avg := toFixed 2 (calculateMetrics.avgRank data.sumAdRank data.impressions) }

/-- A row pushed into the `rows` array for the Supabase upsert
(lines 401-411 / 418-428). -/
structure SupabaseRow where
  date : String
  campaign : String
  spend : ℚ
  impressions : ℚ
  clicks : ℚ
  conversion : ℚ
  conversion_value : ℚ
  quality_index : ℚ
  metrics : MetricSet
  deriving DecidableEq, Repr

/-- `NaverDataTransformer.createSupabaseData` (lines 394-432): the powerlink
row (`'Naver SA'`) and the brand row (`'Naver BS'`) are each emitted only
when the cohort has positive spend, impressions or clicks. -/
def createSupabaseData (agg : AggregateResult) (date : String) : List SupabaseRow :=
  let rows : List SupabaseRow := []
  let rows :=
    if agg.powerlink.spend > 0 ∨ agg.powerlink.impressions > 0 ∨ agg.powerlink.clicks > 0 then
      rows ++ [{ date := date
                 campaign := "Naver SA"
                 spend := toFixed 2 agg.powerlink.spend
                 impressions := agg.powerlink.impressions
                 clicks := agg.powerlink.clicks
                 conversion := agg.powerlink.conversion
                 conversion_value := toFixed 2 agg.powerlink.conversionValue
                 quality_index := 0
                 metrics := calculateAllMetrics agg.powerlink }]
    else rows
  let rows :=
    if agg.brand.spend > 0 ∨ agg.brand.impressions > 0 ∨ agg.brand.clicks > 0 then
      rows ++ [{ date := date
                 campaign := "Naver BS"
                 spend := toFixed 2 agg.brand.spend
                 impressions := agg.brand.impressions
                 clicks := agg.brand.clicks
                 conversion := agg.brand.conversion
                 conversion_value := toFixed 2 agg.brand.conversionValue
                 quality_index := 0
                 metrics := calculateAllMetrics agg.brand }]
    else rows
  rows

/-!
Claim theorems.
-/

/-- C1: report polling.  [PENDING, PENDING, COMPLETE] returns the COMPLETE
payload on the third attempt, and all-PENDING times out after 30 attempts,
as claimed.  But a FAILED status on the second attempt does NOT raise the
terminal error immediately: the `throw` on FAILED is inside the loop's own
`try`, so the `catch (statusError)` swallows it, polling continues, and the
run ends in the timeout error with all 30 attempts consumed. -/
theorem waitForReportCompletion_failed_status_swallowed :
    (waitForReportCompletion "AD"
        (pollsOf [.response ⟨"PENDING", ""⟩, .response ⟨"PENDING", ""⟩,
                  .response ⟨"COMPLETE", "http://u"⟩]) =
      (.ok ⟨"COMPLETE", "http://u"⟩, 3))
  ∧ (waitForReportCompletion "AD" (fun _ => .response ⟨"PENDING", ""⟩) =
      (.error "AD 리포트 처리 시간 초과", 30))
  ∧ (waitForReportCompletion "AD"
        (pollsOf [.response ⟨"PENDING", ""⟩, .response ⟨"FAILED", ""⟩]) =
      (.error "AD 리포트 처리 시간 초과", 30)) :=
  ⟨rfl, rfl, rfl⟩

/-- C2: a non-OK response whose error code (100) is outside the retryable set
{4, 17, 32, 613} and not transient does NOT abort immediately: the terminal
`throw` sits inside the loop's `try`, the `catch` treats it like a network
error, waits the fixed 30000 ms and retries, so a second attempt is made and
its success payload is returned. -/
theorem fetchWithRetry_nonretryable_not_terminal :
    fetchWithRetry "Meta API"
      (responsesOf [.httpError ⟨400, "Bad Request", "bad param", some 100, false⟩,
                    .success "second attempt payload"]) =
    ⟨.ok "second attempt payload", 2, [30000]⟩ :=
  rfl

/-- C3: with maxAttempts = 3, [rate-limit, rate-limit, success] returns the
success payload on the third attempt after two waits of
`baseDelay * 2^(attempt-1)`; three consecutive rate-limit responses raise the
terminal error after the third attempt, with exactly 3 attempts made. -/
theorem fetchWithRetry_rate_limit_scenarios :
    (fetchWithRetry "Meta API"
        (responsesOf [.httpError rateLimited, .httpError rateLimited, .success "data"]) =
      ⟨.ok "data", 3, [baseDelay * 2 ^ 0, baseDelay * 2 ^ 1]⟩)
  ∧ (fetchWithRetry "Meta API"
        (responsesOf [.httpError rateLimited, .httpError rateLimited,
                      .httpError rateLimited]) =
      ⟨.error "Meta API error: 400 Bad Request", 3, [baseDelay * 2 ^ 0, baseDelay * 2 ^ 1]⟩) :=
  ⟨rfl, rfl⟩

/-- C4: every metric function returns 0 exactly when its denominator is 0 and
the stated quotient when the denominator is positive; in the exact rational
embedding each result is either 0 or a quotient by a nonzero denominator, so
no NaN/Infinity can arise. -/
theorem calculateMetrics_division_guards (x d : ℚ) (hx : 0 ≤ x) (hd : 0 ≤ d) :
    ((d = 0 → calculateMetrics.ctr x d = 0) ∧ (0 < d → calculateMetrics.ctr x d = x / d))
  ∧ ((d = 0 → calculateMetrics.cpc x d = 0) ∧ (0 < d → calculateMetrics.cpc x d = x / d))
  ∧ ((d = 0 → calculateMetrics.cvr x d = 0) ∧ (0 < d → calculateMetrics.cvr x d = x / d))
  ∧ ((d = 0 → calculateMetrics.cpm x d = 0) ∧
      (0 < d → calculateMetrics.cpm x d = x / d * 1000))
  ∧ ((d = 0 → calculateMetrics.cpa x d = 0) ∧ (0 < d → calculateMetrics.cpa x d = x / d))
  ∧ ((d = 0 → calculateMetrics.aov x d = 0) ∧ (0 < d → calculateMetrics.aov x d = x / d))
  ∧ ((d = 0 → calculateMetrics.roas x d = 0) ∧ (0 < d → calculateMetrics.roas x d = x / d))
  ∧ ((d = 0 → calculateMetrics.avgRank x d = 0) ∧
      (0 < d → calculateMetrics.avgRank x d = x / d)) := by
  refine ⟨⟨?_, ?_⟩, ⟨?_, ?_⟩, ⟨?_, ?_⟩, ⟨?_, ?_⟩, ⟨?_, ?_⟩, ⟨?_, ?_⟩, ⟨?_, ?_⟩, ⟨?_, ?_⟩⟩ <;>
    intro h <;>
    simp [calculateMetrics.ctr, calculateMetrics.cpc, calculateMetrics.cvr,
          calculateMetrics.cpm, calculateMetrics.cpa, calculateMetrics.aov,
          calculateMetrics.roas, calculateMetrics.avgRank, h, lt_irrefl,
          div_div_eq_mul_div, div_mul_eq_mul_div]

/-- Witness for C4 at concrete inputs: zero denominator and positive
denominator for the first metric. -/
theorem calculateMetrics_division_guards_witness :
    calculateMetrics.ctr 5 0 = 0 ∧ calculateMetrics.ctr 5 10 = 5 / 10 := by
  constructor
  · exact (calculateMetrics_division_guards 5 0 (by norm_num) (by norm_num)).1.1 rfl
  · exact (calculateMetrics_division_guards 5 10 (by norm_num) (by norm_num)).1.2
      (by norm_num)

/-!
Characterisation of the per-campaign aggregation folds.
-/

theorem mapGet_isSome_of_mem_keys {α : Type} (m : List (String × α)) (k : String)
    (h : k ∈ m.map Prod.fst) : (mapGet m k).isSome := by
  induction m with
  | nil => simp at h
  | cons e rest ih =>
      by_cases he : e.1 = k
      · simp [mapGet, he]
      · simp only [List.map_cons, List.mem_cons] at h
        rcases h with h | h
        · exact absurd h.symm he
        · simp [mapGet, he, ih h]

theorem mem_of_mapGet_eq_some {α : Type} (m : List (String × α)) (k : String) (v : α)
    (h : mapGet m k = some v) : (k, v) ∈ m := by
  induction m with
  | nil => simp [mapGet] at h
  | cons e rest ih =>
      by_cases he : e.1 = k
      · simp only [mapGet, if_pos he] at h
        obtain ⟨k', v'⟩ := e
        have hk : k' = k := he
        subst hk
        injection h with h
        subst h
        exact List.mem_cons_self _ _
      · simp only [mapGet, if_neg he] at h
        exact List.mem_cons_of_mem _ (ih h)

/-- The ad rows of a given campaign, in input order. -/
def adRowsFor (adData : List AdRecord) (cid : String) : List AdRecord :=
  adData.filter (fun a => a.campaignId == cid)

theorem adStep_get_self (m : List (String × CampaignStats)) (ad : AdRecord) :
    mapGet (adStep m ad) ad.campaignId =
      some (let s := (mapGet m ad.campaignId).getD zeroStats
            { s with
              impressions := s.impressions + ad.impressions
              clicks := s.clicks + ad.clicks
              cost := s.cost + ad.cost
              sumAdRank := s.sumAdRank + ad.sumAdRank }) := by
  unfold adStep
  cases h : mapGet m ad.campaignId with
  | some s => simp [mapHas, h, mapGet_set_self]
  | none => simp [mapHas, h, mapGet_set_self]

theorem adStep_get_ne (m : List (String × CampaignStats)) (ad : AdRecord)
    (cid : String) (h : ad.campaignId ≠ cid) :
    mapGet (adStep m ad) cid = mapGet m cid := by
  unfold adStep
  cases hg : mapGet m ad.campaignId with
  | some s => simp [mapHas, hg, mapGet_set_self, mapGet_set_ne _ _ _ _ h]
  | none => simp [mapHas, hg, mapGet_set_self, mapGet_set_ne _ _ _ _ h]

theorem adFold_get_some (adData : List AdRecord) :
    ∀ (m : List (String × CampaignStats)) (cid : String) (s : CampaignStats),
    mapGet m cid = some s →
    mapGet (adData.foldl adStep m) cid =
      some { s with
             impressions := s.impressions + ((adRowsFor adData cid).map (·.impressions)).sum
             clicks := s.clicks + ((adRowsFor adData cid).map (·.clicks)).sum
             cost := s.cost + ((adRowsFor adData cid).map (·.cost)).sum
             sumAdRank := s.sumAdRank + ((adRowsFor adData cid).map (·.sumAdRank)).sum } := by
  induction adData with
  | nil => intro m cid s h; simp [adRowsFor, h]
  | cons a rest ih =>
      intro m cid s h
      by_cases hc : a.campaignId = cid
      · have hstep := adStep_get_self m a
        rw [hc] at hstep
        rw [h] at hstep
        simp only [Option.getD_some] at hstep
        have := ih (adStep m a) cid _ hstep
        rw [List.foldl_cons, this]
        simp [adRowsFor, hc, add_assoc]
      · have hstep := adStep_get_ne m a cid hc
        rw [List.foldl_cons, ih (adStep m a) cid s (hstep.trans h)]
        simp [adRowsFor, hc]

theorem adFold_get_none (adData : List AdRecord) :
    ∀ (m : List (String × CampaignStats)) (cid : String),
    mapGet m cid = none →
    mapGet (adData.foldl adStep m) cid =
      if adRowsFor adData cid = [] then none
      else
        some { impressions := ((adRowsFor adData cid).map (·.impressions)).sum
               clicks := ((adRowsFor adData cid).map (·.clicks)).sum
               cost := ((adRowsFor adData cid).map (·.cost)).sum
               sumAdRank := ((adRowsFor adData cid).map (·.sumAdRank)).sum
               conversions := 0
               conversionValue := 0 } := by
  induction adData with
  | nil => intro m cid h; simp [adRowsFor, h]
  | cons a rest ih =>
      intro m cid h
      by_cases hc : a.campaignId = cid
      · have hstep := adStep_get_self m a
        rw [hc] at hstep
        rw [h] at hstep
        simp only [Option.getD_none] at hstep
        have := adFold_get_some rest (adStep m a) cid _ hstep
        rw [List.foldl_cons, this]
        simp [adRowsFor, hc, zeroStats, add_assoc]
      · have hstep := adStep_get_ne m a cid hc
        rw [List.foldl_cons, ih (adStep m a) cid (hstep.trans h)]
        simp [adRowsFor, hc]

/-- Lookup characterisation of `aggregateAdData`: each campaign's entry is
exactly the componentwise sum of its own rows (with conversions zero). -/
theorem aggregateAdData_get (adData : List AdRecord) (cid : String) :
    mapGet (aggregateAdData adData) cid =
      if adRowsFor adData cid = [] then none
      else
        some { impressions := ((adRowsFor adData cid).map (·.impressions)).sum
               clicks := ((adRowsFor adData cid).map (·.clicks)).sum
               cost := ((adRowsFor adData cid).map (·.cost)).sum
               sumAdRank := ((adRowsFor adData cid).map (·.sumAdRank)).sum
               conversions := 0
               conversionValue := 0 } :=
  adFold_get_none adData [] cid rfl

/-- C9: per-campaign ad aggregation is invariant under permutation of the
input rows: any reordering yields the same per-campaign summed totals. -/
theorem aggregateAdData_perm_invariant (l l' : List AdRecord) (h : l.Perm l')
    (cid : String) :
    mapGet (aggregateAdData l) cid = mapGet (aggregateAdData l') cid := by
  have hf : (adRowsFor l cid).Perm (adRowsFor l' cid) := h.filter _
  rw [aggregateAdData_get, aggregateAdData_get]
  by_cases hn : adRowsFor l cid = []
  · rw [hn] at hf
    have : adRowsFor l' cid = [] := hf.symm.eq_nil
    simp [hn, this]
  · have hn' : adRowsFor l' cid ≠ [] := by
      intro hz
      rw [hz] at hf
      exact hn hf.eq_nil
    rw [if_neg hn, if_neg hn']
    have e1 := (hf.map (·.impressions)).sum_eq
    have e2 := (hf.map (·.clicks)).sum_eq
    have e3 := (hf.map (·.cost)).sum_eq
    have e4 := (hf.map (·.sumAdRank)).sum_eq
    rw [e1, e2, e3, e4]

/-- Witness for C9: two concrete row lists that are permutations of each
other give the same aggregate for campaign `C1`. -/
theorem aggregateAdData_perm_invariant_witness :
    mapGet (aggregateAdData [⟨"C1", 1, 2, 3, 4⟩, ⟨"C2", 5, 6, 7, 8⟩, ⟨"C1", 9, 10, 11, 12⟩])
        "C1" =
    mapGet (aggregateAdData [⟨"C2", 5, 6, 7, 8⟩, ⟨"C1", 9, 10, 11, 12⟩, ⟨"C1", 1, 2, 3, 4⟩])
        "C1" :=
  aggregateAdData_perm_invariant _ _
    (List.Perm.trans (List.Perm.swap _ _ _) (List.Perm.cons _ (List.Perm.swap _ _ _)))
    "C1"

/-- The conversion rows of a given campaign, in input order. -/
def convRowsFor (conversionData : List ConversionRecord) (cid : String) :
    List ConversionRecord :=
  conversionData.filter (fun r => r.campaignId == cid)

theorem convStep_get_self (m : List (String × ConvTotals)) (r : ConversionRecord) :
    mapGet (convStep m r) r.campaignId =
      some (let c := (mapGet m r.campaignId).getD ⟨0, 0⟩
            (⟨c.count + r.conversionCount, c.value + r.conversionValue⟩ : ConvTotals)) := by
  unfold convStep
  cases h : mapGet m r.campaignId with
  | some c => simp [mapHas, h, mapGet_set_self]
  | none => simp [mapHas, h, mapGet_set_self]

theorem convStep_get_ne (m : List (String × ConvTotals)) (r : ConversionRecord)
    (cid : String) (h : r.campaignId ≠ cid) :
    mapGet (convStep m r) cid = mapGet m cid := by
  unfold convStep
  cases hg : mapGet m r.campaignId with
  | some c => simp [mapHas, hg, mapGet_set_self, mapGet_set_ne _ _ _ _ h]
  | none => simp [mapHas, hg, mapGet_set_self, mapGet_set_ne _ _ _ _ h]

theorem convFold_get_some (conversionData : List ConversionRecord) :
    ∀ (m : List (String × ConvTotals)) (cid : String) (c : ConvTotals),
    mapGet m cid = some c →
    mapGet (conversionData.foldl convStep m) cid =
      some ⟨c.count + ((convRowsFor conversionData cid).map (·.conversionCount)).sum,
            c.value + ((convRowsFor conversionData cid).map (·.conversionValue)).sum⟩ := by
  induction conversionData with
  | nil => intro m cid c h; simp [convRowsFor, h]
  | cons r rest ih =>
      intro m cid c h
      by_cases hc : r.campaignId = cid
      · have hstep := convStep_get_self m r
        rw [hc] at hstep
        rw [h] at hstep
        simp only [Option.getD_some] at hstep
        have := ih (convStep m r) cid _ hstep
        rw [List.foldl_cons, this]
        simp [convRowsFor, hc, add_assoc]
      · have hstep := convStep_get_ne m r cid hc
        rw [List.foldl_cons, ih (convStep m r) cid c (hstep.trans h)]
        simp [convRowsFor, hc]

theorem convFold_get_none (conversionData : List ConversionRecord) :
    ∀ (m : List (String × ConvTotals)) (cid : String),
    mapGet m cid = none →
    mapGet (conversionData.foldl convStep m) cid =
      if convRowsFor conversionData cid = [] then none
      else
        some ⟨((convRowsFor conversionData cid).map (·.conversionCount)).sum,
              ((convRowsFor conversionData cid).map (·.conversionValue)).sum⟩ := by
  induction conversionData with
  | nil => intro m cid h; simp [convRowsFor, h]
  | cons r rest ih =>
      intro m cid h
      by_cases hc : r.campaignId = cid
      · have hstep := convStep_get_self m r
        rw [hc] at hstep
        rw [h] at hstep
        simp only [Option.getD_none] at hstep
        have := convFold_get_some rest (convStep m r) cid _ hstep
        rw [List.foldl_cons, this]
        simp [convRowsFor, hc, add_assoc]
      · have hstep := convStep_get_ne m r cid hc
        rw [List.foldl_cons, ih (convStep m r) cid (hstep.trans h)]
        simp [convRowsFor, hc]

/-- Lookup characterisation of the `campaignConversions` map: per campaign,
the summed counts/values of its conversion rows (line 522's comment calls
this the dedup pass). -/
theorem buildCampaignConversions_get (conversionData : List ConversionRecord)
    (cid : String) :
    mapGet (buildCampaignConversions conversionData) cid =
      if convRowsFor conversionData cid = [] then none
      else
        some ⟨((convRowsFor conversionData cid).map (·.conversionCount)).sum,
              ((convRowsFor conversionData cid).map (·.conversionValue)).sum⟩ :=
  convFold_get_none conversionData [] cid rfl

theorem keys_convStep (m : List (String × ConvTotals)) (r : ConversionRecord) :
    (convStep m r).map Prod.fst =
      if mapHas m r.campaignId then m.map Prod.fst
      else m.map Prod.fst ++ [r.campaignId] := by
  unfold convStep
  by_cases h : mapHas m r.campaignId
  · have hs : (mapGet m r.campaignId).isSome := h
    cases hg : mapGet m r.campaignId with
    | some c => simp [h, hg, keys_set_of_has m _ _ h]
    | none => rw [hg] at hs; simp at hs
  · cases hg : mapGet m r.campaignId with
    | some c => exact absurd (by simp [mapHas, hg]) h
    | none =>
        have h1 : mapGet (mapSet m r.campaignId (⟨0, 0⟩ : ConvTotals)) r.campaignId =
            some ⟨0, 0⟩ := mapGet_set_self _ _ _
        have hhas : mapHas (mapSet m r.campaignId (⟨0, 0⟩ : ConvTotals)) r.campaignId = true := by
          simp [mapHas, h1]
        simp only [h, if_false, Bool.false_eq_true]
        simp only [h1]
        rw [keys_set_of_has _ _ _ hhas, keys_set]
        rw [if_neg (by simp [h])]

theorem buildCampaignConversions_keys_nodup (conversionData : List ConversionRecord) :
    ((buildCampaignConversions conversionData).map Prod.fst).Nodup := by
  suffices h : ∀ m : List (String × ConvTotals), (m.map Prod.fst).Nodup →
      ((conversionData.foldl convStep m).map Prod.fst).Nodup by
    exact h [] (by simp)
  induction conversionData with
  | nil => intro m hm; simpa using hm
  | cons r rest ih =>
      intro m hm
      rw [List.foldl_cons]
      refine ih (convStep m r) ?_
      rw [keys_convStep]
      by_cases h : mapHas m r.campaignId
      · simpa [h] using hm
      · rw [if_neg h]
        refine List.Nodup.append hm (List.nodup_singleton _) ?_
        intro k hk hk'
        simp only [List.mem_singleton] at hk'
        rw [hk'] at hk
        have := mapGet_isSome_of_mem_keys m r.campaignId hk
        simp [mapHas, this] at h

theorem mergeStep_get_self (cs : List (String × CampaignStats)) (e : String × ConvTotals) :
    mapGet (mergeStep cs e) e.1 =
      (mapGet cs e.1).map
        (fun s => { s with conversions := e.2.count, conversionValue := e.2.value }) := by
  unfold mergeStep
  cases h : mapGet cs e.1 with
  | some s => simp [mapHas, h, mapGet_set_self]
  | none => simp [mapHas, h]

theorem mergeStep_get_ne (cs : List (String × CampaignStats)) (e : String × ConvTotals)
    (cid : String) (h : e.1 ≠ cid) :
    mapGet (mergeStep cs e) cid = mapGet cs cid := by
  unfold mergeStep
  cases hg : mapGet cs e.1 with
  | some s => simp [mapHas, hg, mapGet_set_ne _ _ _ _ h]
  | none => simp [mapHas, hg]

theorem mergeFold_get_not_mem (conv : List (String × ConvTotals))
    (cs : List (String × CampaignStats)) (cid : String)
    (h : cid ∉ conv.map Prod.fst) :
    mapGet (conv.foldl mergeStep cs) cid = mapGet cs cid := by
  induction conv generalizing cs with
  | nil => rfl
  | cons e rest ih =>
      simp only [List.map_cons, List.mem_cons] at h
      push_neg at h
      rw [List.foldl_cons, ih _ h.2, mergeStep_get_ne _ _ _ (fun he => h.1 he.symm)]

theorem mergeFold_get_mem (conv : List (String × ConvTotals)) :
    ∀ (cs : List (String × CampaignStats)) (cid : String) (c : ConvTotals)
      (s : CampaignStats),
    (conv.map Prod.fst).Nodup → (cid, c) ∈ conv → mapGet cs cid = some s →
    mapGet (conv.foldl mergeStep cs) cid =
      some { s with conversions := c.count, conversionValue := c.value } := by
  induction conv with
  | nil => intro cs cid c s _ hmem _; simp at hmem
  | cons e rest ih =>
      intro cs cid c s hnd hmem h
      simp only [List.map_cons, List.nodup_cons] at hnd
      rcases List.mem_cons.mp hmem with hme | hme
      · subst hme
        rw [List.foldl_cons]
        have hrest : cid ∉ rest.map Prod.fst := hnd.1
        rw [mergeFold_get_not_mem rest _ cid hrest]
        rw [mergeStep_get_self cs (cid, c), h]
        rfl
      · have hne : e.1 ≠ cid := by
          intro hec
          apply hnd.1
          rw [hec]
          exact List.mem_map_of_mem Prod.fst hme
        rw [List.foldl_cons]
        exact ih _ cid c s hnd.2 hme ((mergeStep_get_ne cs e cid hne).trans h)

theorem mergeStep_keys (cs : List (String × CampaignStats)) (e : String × ConvTotals) :
    (mergeStep cs e).map Prod.fst = cs.map Prod.fst := by
  unfold mergeStep
  by_cases h : mapHas cs e.1
  · have hs : (mapGet cs e.1).isSome := h
    cases hg : mapGet cs e.1 with
    | some s => simp [h, hg, keys_set_of_has cs _ _ h]
    | none => rw [hg] at hs; simp at hs
  · simp [h]

theorem mergeFold_keys (conv : List (String × ConvTotals))
    (cs : List (String × CampaignStats)) :
    (conv.foldl mergeStep cs).map Prod.fst = cs.map Prod.fst := by
  induction conv generalizing cs with
  | nil => rfl
  | cons e rest ih => rw [List.foldl_cons, ih, mergeStep_keys]

/-- The fields of a campaign record that the conversion merge must not touch. -/
def statFrame (s : CampaignStats) : ℚ × ℚ × ℚ × ℚ :=
  (s.impressions, s.clicks, s.cost, s.sumAdRank)

theorem mergeStep_frame (cs : List (String × CampaignStats)) (e : String × ConvTotals)
    (cid : String) :
    (mapGet (mergeStep cs e) cid).map statFrame = (mapGet cs cid).map statFrame := by
  by_cases h : e.1 = cid
  · subst h
    rw [mergeStep_get_self, Option.map_map]
    rfl
  · rw [mergeStep_get_ne _ _ _ h]

theorem mergeFold_frame (conv : List (String × ConvTotals))
    (cs : List (String × CampaignStats)) (cid : String) :
    (mapGet (conv.foldl mergeStep cs) cid).map statFrame =
      (mapGet cs cid).map statFrame := by
  induction conv generalizing cs with
  | nil => rfl
  | cons e rest ih => rw [List.foldl_cons, ih, mergeStep_frame]

/-- C6: the conversion merge is total (it is a function in this embedding:
no input can make it raise), creates no new map entries and removes none
(the key list — hence the set of campaigns — is exactly that of the input,
so conversion rows for campaigns absent from the map are silently dropped),
and leaves every campaign's impressions, clicks, cost and sumAdRank
untouched. -/
theorem mergeConversionData_frame_effect (m : List (String × CampaignStats))
    (d : List ConversionRecord) :
    (mergeConversionData m d).map Prod.fst = m.map Prod.fst
  ∧ ∀ cid, (mapGet (mergeConversionData m d) cid).map statFrame =
      (mapGet m cid).map statFrame :=
  ⟨mergeFold_keys _ _, fun _ => mergeFold_frame _ _ _⟩

/-- C5: the conversion merge overwrites rather than accumulates.  Within one
pass the rows of a campaign are summed; a campaign present in the map gets
exactly those summed totals, and running the same merge a second time leaves
the entry unchanged (not doubled). -/
theorem mergeConversionData_overwrites (m : List (String × CampaignStats))
    (d : List ConversionRecord) (cid : String) (s : CampaignStats)
    (h : mapGet m cid = some s) :
    mapGet (mergeConversionData (mergeConversionData m d) d) cid =
      mapGet (mergeConversionData m d) cid
  ∧ (convRowsFor d cid ≠ [] →
      mapGet (mergeConversionData m d) cid =
        some { s with
               conversions := ((convRowsFor d cid).map (·.conversionCount)).sum
               conversionValue := ((convRowsFor d cid).map (·.conversionValue)).sum })
  ∧ (convRowsFor d cid = [] → mapGet (mergeConversionData m d) cid = some s) := by
  have hnd := buildCampaignConversions_keys_nodup d
  by_cases hc : convRowsFor d cid = []
  · have hget : mapGet (buildCampaignConversions d) cid = none := by
      rw [buildCampaignConversions_get, if_pos hc]
    have hnotmem : cid ∉ (buildCampaignConversions d).map Prod.fst := by
      intro hmem
      have hsome := mapGet_isSome_of_mem_keys _ _ hmem
      rw [hget] at hsome
      simp at hsome
    refine ⟨?_, fun hne => absurd hc hne, fun _ => ?_⟩
    · unfold mergeConversionData
      rw [mergeFold_get_not_mem _ _ _ hnotmem]
    · unfold mergeConversionData
      rw [mergeFold_get_not_mem _ _ _ hnotmem, h]
  · have hget : mapGet (buildCampaignConversions d) cid =
        some ⟨((convRowsFor d cid).map (·.conversionCount)).sum,
              ((convRowsFor d cid).map (·.conversionValue)).sum⟩ := by
      rw [buildCampaignConversions_get, if_neg hc]
    have hmem := mem_of_mapGet_eq_some _ _ _ hget
    have h1 : mapGet (mergeConversionData m d) cid =
        some { s with
               conversions := ((convRowsFor d cid).map (·.conversionCount)).sum
               conversionValue := ((convRowsFor d cid).map (·.conversionValue)).sum } :=
      mergeFold_get_mem _ m cid _ s hnd hmem h
    refine ⟨?_, fun _ => h1, fun hz => absurd hz hc⟩
    have h2 := mergeFold_get_mem (buildCampaignConversions d) (mergeConversionData m d)
      cid _ _ hnd hmem h1
    unfold mergeConversionData at h1 h2 ⊢
    rw [h2, h1]

/-- Witness for C5 at a concrete map and conversion dataset with duplicate
rows for the same campaign. -/
theorem mergeConversionData_overwrites_witness :
    mapGet (mergeConversionData
        (mergeConversionData [("C1", (⟨1, 2, 3, 4, 5, 6⟩ : CampaignStats))]
          [⟨"C1", 2, 7⟩, ⟨"C1", 3, 8⟩])
        [⟨"C1", 2, 7⟩, ⟨"C1", 3, 8⟩]) "C1" =
      mapGet (mergeConversionData [("C1", (⟨1, 2, 3, 4, 5, 6⟩ : CampaignStats))]
        [⟨"C1", 2, 7⟩, ⟨"C1", 3, 8⟩]) "C1" :=
  (mergeConversionData_overwrites [("C1", ⟨1, 2, 3, 4, 5, 6⟩)]
    [⟨"C1", 2, 7⟩, ⟨"C1", 3, 8⟩] "C1" ⟨1, 2, 3, 4, 5, 6⟩ rfl).1

/-- Whether `aggregateByAdType` routes a campaign to the brand cohort: the
type lookup (defaulted to `TEXT_45`) equals `BRAND_SEARCH_AD`. -/
def routesToBrand (campaignTypeMap : List (String × String)) (cid : String) : Bool :=
  decide ((mapGet campaignTypeMap cid).getD "TEXT_45" = "BRAND_SEARCH_AD")

theorem adTypeFold_counts (t : List (String × String)) (m : List (String × CampaignStats)) :
    ∀ acc : AggregateResult,
    (m.foldl (adTypeStep t) acc).brand.campaignCount =
      acc.brand.campaignCount + m.countP (fun e => routesToBrand t e.1)
  ∧ (m.foldl (adTypeStep t) acc).powerlink.campaignCount =
      acc.powerlink.campaignCount + m.countP (fun e => !routesToBrand t e.1) := by
  induction m with
  | nil => intro acc; simp
  | cons e rest ih =>
      intro acc
      rw [List.foldl_cons]
      rcases ih (adTypeStep t acc e) with ⟨ihb, ihp⟩
      by_cases h : (mapGet t e.1).getD "TEXT_45" = "BRAND_SEARCH_AD"
      · constructor
        · rw [ihb]
          simp [adTypeStep, h, List.countP_cons, routesToBrand]
          omega
        · rw [ihp]
          simp [adTypeStep, h, List.countP_cons, routesToBrand]
      · constructor
        · rw [ihb]
          simp [adTypeStep, h, List.countP_cons, routesToBrand]
        · rw [ihp]
          simp [adTypeStep, h, List.countP_cons, routesToBrand]
          omega

theorem adTypeFold_spend (t : List (String × String)) (m : List (String × CampaignStats)) :
    ∀ acc : AggregateResult,
    (m.foldl (adTypeStep t) acc).brand.spend = acc.brand.spend
  ∧ (m.foldl (adTypeStep t) acc).powerlink.spend =
      acc.powerlink.spend +
        ((m.filter (fun e => !routesToBrand t e.1)).map (fun e => e.2.cost * VAT_RATE)).sum := by
  induction m with
  | nil => intro acc; simp
  | cons e rest ih =>
      intro acc
      rw [List.foldl_cons]
      rcases ih (adTypeStep t acc e) with ⟨ihb, ihp⟩
      by_cases h : (mapGet t e.1).getD "TEXT_45" = "BRAND_SEARCH_AD"
      · constructor
        · rw [ihb]
          simp [adTypeStep, h]
        · rw [ihp]
          simp [adTypeStep, h, routesToBrand]
      · constructor
        · rw [ihb]
          simp [adTypeStep, h]
        · rw [ihp]
          simp [adTypeStep, h, routesToBrand, add_assoc]

theorem countP_partition {α : Type} (p : α → Bool) (l : List α) :
    l.countP (fun a => !p a) + l.countP p = l.length := by
  induction l with
  | nil => rfl
  | cons a rest ih =>
      by_cases h : p a
      · simp [List.countP_cons, h]
        omega
      · simp [List.countP_cons, h]
        omega

/-- C7: cohort routing is total and a partition: the brand cohort counts
exactly the campaigns whose looked-up type is `BRAND_SEARCH_AD`, the
powerlink cohort counts all the others (including campaigns missing from the
lookup, which default to `TEXT_45`), and the two campaign counts always sum
to the number of campaigns in the input map. -/
theorem aggregateByAdType_partition (m : List (String × CampaignStats))
    (t : List (String × String)) :
    (aggregateByAdType m t).brand.campaignCount =
      m.countP (fun e => routesToBrand t e.1)
  ∧ (aggregateByAdType m t).powerlink.campaignCount =
      m.countP (fun e => !routesToBrand t e.1)
  ∧ (aggregateByAdType m t).powerlink.campaignCount +
      (aggregateByAdType m t).brand.campaignCount = m.length := by
  rcases adTypeFold_counts t m ⟨powerlinkInit, brandInit⟩ with ⟨hb, hp⟩
  have hb' : (aggregateByAdType m t).brand.campaignCount =
      m.countP (fun e => routesToBrand t e.1) := by
    simpa [aggregateByAdType, brandInit] using hb
  have hp' : (aggregateByAdType m t).powerlink.campaignCount =
      m.countP (fun e => !routesToBrand t e.1) := by
    simpa [aggregateByAdType, powerlinkInit] using hp
  exact ⟨hb', hp', by rw [hb', hp']; exact countP_partition _ m⟩

/-- C8: the powerlink cohort's spend is the VAT-multiplied sum of its
campaigns' costs, the brand cohort's spend is the fixed constant
`BRAND_SEARCH_DAILY_SPEND` regardless of its campaigns, and the concrete
single-row scenario gives powerlink totals {100, 10, 500 × VAT_RATE} with
CTR = 0.10 and CPC = spend / 10. -/
theorem aggregateByAdType_spend_rule (m : List (String × CampaignStats))
    (t : List (String × String)) :
    (aggregateByAdType m t).brand.spend = BRAND_SEARCH_DAILY_SPEND
  ∧ (aggregateByAdType m t).powerlink.spend =
      ((m.filter (fun e => !routesToBrand t e.1)).map (fun e => e.2.cost * VAT_RATE)).sum
  ∧ (let agg := aggregateReports [⟨"C1", 100, 10, 500, 0⟩] [] []
     agg.powerlink.impressions = 100 ∧ agg.powerlink.clicks = 10 ∧
     agg.powerlink.spend = 500 * VAT_RATE ∧
     calculateMetrics.ctr agg.powerlink.clicks agg.powerlink.impressions = 1 / 10 ∧
     calculateMetrics.cpc agg.powerlink.spend agg.powerlink.clicks =
       agg.powerlink.spend / 10) := by
  rcases adTypeFold_spend t m ⟨powerlinkInit, brandInit⟩ with ⟨hb, hp⟩
  refine ⟨by simpa [aggregateByAdType, brandInit] using hb,
          by simpa [aggregateByAdType, powerlinkInit] using hp, ?_⟩
  have hagg : aggregateReports [⟨"C1", 100, 10, 500, 0⟩] [] [] =
      ⟨⟨550, 100, 10, 0, 0, 0, 1⟩, brandInit⟩ := by
    simp [aggregateReports, aggregateByAdType, mergeConversionData,
          buildCampaignConversions, aggregateAdData, adStep, convStep, mergeStep,
          adTypeStep, mapGet, mapHas, mapSet, zeroStats, powerlinkInit, brandInit,
          VAT_RATE, BRAND_SEARCH_DAILY_SPEND]
    norm_num
  simp only [hagg]
  norm_num [calculateMetrics.ctr, calculateMetrics.cpc, VAT_RATE]

/-- C10: whatever the input data, the output of aggregation followed by
`createSupabaseData` contains the brand (`'Naver BS'`) row: the brand
cohort's spend is the fixed positive constant 19486, so the zero-activity
suppression condition is always satisfied for the brand cohort. -/
theorem createSupabaseData_brand_row_always_present
    (adData : List AdRecord) (conversionData : List ConversionRecord)
    (campaignTypeMap : List (String × String)) (date : String) :
    ∃ r ∈ createSupabaseData (aggregateReports adData conversionData campaignTypeMap) date,
      r.campaign = "Naver BS" := by
  have hb : (aggregateReports adData conversionData campaignTypeMap).brand.spend =
      BRAND_SEARCH_DAILY_SPEND := by
    have := (adTypeFold_spend campaignTypeMap
      (mergeConversionData (aggregateAdData adData) conversionData)
      ⟨powerlinkInit, brandInit⟩).1
    simpa [aggregateReports, aggregateByAdType, brandInit] using this
  have hcond : (aggregateReports adData conversionData campaignTypeMap).brand.spend > 0
      ∨ (aggregateReports adData conversionData campaignTypeMap).brand.impressions > 0
      ∨ (aggregateReports adData conversionData campaignTypeMap).brand.clicks > 0 :=
    Or.inl (by rw [hb]; norm_num [BRAND_SEARCH_DAILY_SPEND])
  simp only [createSupabaseData]
  rw [if_pos hcond]
  exact ⟨_, List.mem_append_right _ (List.mem_singleton.mpr rfl), rfl⟩
